import Mathlib

/-
Verification of the orchestra process supervisor and approval gateway
(src/src-tauri/src/lib.rs and src/src-tauri/src/mcp_manager.rs).

The serde_json value type is modelled by the inductive Json below; the
JSON text parser itself (serde_json::from_str) is treated as an abstract
parameter of type String -> Option Json, since the claims only depend on
the shape of the parse result, never on the byte-level grammar.
-/

/-- Model of serde_json::Value: null, bool, number, string, array, object.
Objects are association lists with unique keys (serde maps have unique keys). -/
inductive Json where
  | null : Json
  | bool (b : Bool) : Json
  | num (n : Int) : Json
  | str (s : String) : Json
  | arr (items : List Json) : Json
  | obj (fields : List (String × Json)) : Json

/-- First value stored under a key in an association list (serde Map::get). -/
def lookupKey {β : Type} (k : String) : List (String × β) → Option β
  | [] => none
  | (k', v) :: rest => if k' = k then some v else lookupKey k rest

/-- serde_json Value::get(key): field lookup on objects, none otherwise. -/
def Json.get : Json → String → Option Json
  | Json.obj fields, k => lookupKey k fields
  | _, _ => none

/-- serde_json Value::as_str. -/
def Json.asStr : Json → Option String
  | Json.str s => some s
  | _ => none

/-- serde_json Value::as_array. -/
def Json.asArr : Json → Option (List Json)
  | Json.arr items => some items
  | _ => none

/-- Composition json.get(key).and_then(as_str) used throughout lib.rs. -/
def Json.getStr (j : Json) (k : String) : Option String :=
  match j.get k with
  | some v => v.asStr
  | none => none

/-- Rust str::trim: remove leading and trailing whitespace. Modelled over the
character list of the string (the ASCII whitespace subset of Char.isWhitespace
is what the inputs of this development exercise). -/
def trimOf (s : String) : String :=
  String.mk (((s.data.dropWhile Char.isWhitespace).reverse.dropWhile Char.isWhitespace).reverse)

/-- Rust str::is_empty applied to a trimmed string. -/
def trimIsEmpty (s : String) : Bool :=
  (trimOf s).data.isEmpty

/-- Vec::join with a newline separator (text_results.join in lib.rs). -/
def joinNewline : List String → String
  | [] => ""
  | [a] => a
  | a :: rest => a ++ "\n" ++ joinNewline rest

/-- The inner loop of the tool_result branch (lib.rs lines 89 to 97):
for each item of the content array, take its text field, and when the
trimmed text is nonempty collect the prefixed trimmed summary. -/
def toolResultOfArray : List Json → List String
  | [] => []
  | result_item :: rest =>
      (match result_item.getStr "text" with
       | some result_text =>
           if trimIsEmpty result_text then [] else ["Tool result: " ++ trimOf result_text]
       | none => []) ++ toolResultOfArray rest

/-- The tool_result content handling (lib.rs lines 88 to 103): content may be
an array of result items, or a single object carrying a text field. -/
def toolResultStrings (content : Json) : List String :=
  match content.asArr with
  | some items => toolResultOfArray items
  | none =>
      match content.getStr "text" with
      | some result_text =>
          if trimIsEmpty result_text then [] else ["Tool result: " ++ trimOf result_text]
      | none => []

/-- One iteration of the assistant content loop (lib.rs lines 78 to 107):
text items with nonempty trimmed text are collected verbatim, tool_result
items contribute their prefixed trimmed summaries, every other item type
(including tool_use) contributes nothing. -/
def collectItem (item : Json) : List String :=
  match item.getStr "type" with
  | some "text" =>
      match item.getStr "text" with
      | some text => if trimIsEmpty text then [] else [text]
      | none => []
  | some "tool_result" =>
      match item.get "content" with
      | some content => toolResultStrings content
      | none => []
  | some _ => []
  | none => []

/-- The whole assistant content loop: concatenation of all collected strings
in encounter order. -/
def collectAll : List Json → List String
  | [] => []
  | item :: rest => collectItem item ++ collectAll rest

/-- parse_claude_json_line from lib.rs lines 57 to 150, with the JSON text
parser abstracted as the parameter parse. On parse failure the raw line is
returned when its trimmed form is nonempty. On success the message type
dispatches: system, user, result and unknown kinds are suppressed; the
assistant kind collects text and tool_result content as in collectAll, or
falls back to a direct string content field. -/
def parse_claude_json_line (parse : String → Option Json) (line : String) : Option String :=
  match parse line with
  | some json =>
      match json.getStr "type" with
      | some message_type =>
          match message_type with
          | "system" => none
          | "user" => none
          | "assistant" =>
              match json.get "message" with
              | some message =>
                  match (message.get "content").bind Json.asArr with
                  | some content_array =>
                      let text_results := collectAll content_array
                      if text_results.isEmpty then none else some (joinNewline text_results)
                  | none =>
                      match (message.get "content").bind Json.asStr with
                      | some content =>
                          if trimIsEmpty content then none else some content
                      | none => none
              | none => none
          | "result" => none
          | _ => none
      | none => none
  | none =>
      if trimIsEmpty line then none else some line

/-- Helper building the assistant message JSON shape used by the protocol. -/
def assistantJson (items : List Json) : Json :=
  Json.obj [("type", Json.str "assistant"),
            ("message", Json.obj [("content", Json.arr items)])]

/-- Helper building a text content item. -/
def textItem (s : String) : Json :=
  Json.obj [("type", Json.str "text"), ("text", Json.str s)]

/-- Helper building a tool_use content item (skipped by the classifier). -/
def toolUseItem (name : String) : Json :=
  Json.obj [("type", Json.str "tool_use"), ("name", Json.str name)]

/-- Helper building a tool_result content item whose content is a single
object carrying a text field. -/
def toolResultItem (s : String) : Json :=
  Json.obj [("type", Json.str "tool_result"),
            ("content", Json.obj [("text", Json.str s)])]

/-- Events emitted by the supervisor to the UI subscriber: the claude-output
event (process id, content, is_error flag) and the claude-completed event
(process id, success flag). Timestamps are omitted: no claim observes them. -/
inductive SupEvent where
  | output (process_id : String) (content : String) (is_error : Bool) : SupEvent
  | completed (process_id : String) (success : Bool) : SupEvent

/-- True on claude-completed events. -/
def SupEvent.isCompleted : SupEvent → Bool
  | SupEvent.completed _ _ => true
  | _ => false

/-- True on claude-output events. -/
def SupEvent.isOutput : SupEvent → Bool
  | SupEvent.output _ _ _ => true
  | _ => false

/-- True on claude-output events carrying is_error = true. -/
def SupEvent.isErrOutput : SupEvent → Bool
  | SupEvent.output _ _ e => e
  | _ => false

/-- Number of claude-completed events in a trace. -/
def countCompleted (evs : List SupEvent) : Nat :=
  (evs.filter SupEvent.isCompleted).length

/-- The terminal-message check of the stdout loop (lib.rs lines 366 to 368):
the line parses as JSON and its type field is the string result. -/
def isResultLine (parse : String → Option Json) (line : String) : Bool :=
  match parse line with
  | some json =>
      match json.getStr "type" with
      | some msg_type => msg_type == "result"
      | none => false
  | none => false

/-- One iteration of the stdout loop (lib.rs lines 363 to 394) on one line,
threading the shared completion_sent flag. A terminal line atomically swaps
the flag to true and emits the completion event only when the flag was false,
then skips per-line emission (the continue statement); every other line goes
through the classifier and, when it yields text, becomes a non-error output
event. -/
def stdoutLineStep (parse : String → Option Json) (pid : String) (line : String)
    (sent : Bool) : List SupEvent × Bool :=
  if isResultLine parse line then
    (if sent then [] else [SupEvent.completed pid true], true)
  else
    match parse_claude_json_line parse line with
    | some content => ([SupEvent.output pid content false], sent)
    | none => ([], sent)

/-- The stdout loop over all lines, accumulating emitted events and the final
value of the completion_sent flag. -/
def runStdout (parse : String → Option Json) (pid : String) :
    List String → Bool → List SupEvent × Bool
  | [], sent => ([], sent)
  | l :: ls, sent =>
      let step := stdoutLineStep parse pid l sent
      let rest := runStdout parse pid ls step.2
      (step.1 ++ rest.1, rest.2)

/-- Outcome of child.wait() in the wait loop: an OS exit status (code is
Some n, or None when killed by a signal), or a wait error. -/
inductive WaitOutcome where
  | exited (code : Option Int) : WaitOutcome
  | waitError (emsg : String) : WaitOutcome

/-- ExitStatus::success(): true exactly for exit code zero. -/
def exitSuccess : Option Int → Bool
  | some 0 => true
  | _ => false

/-- The error-output content the wait loop formats on a non-success exit
(the Debug rendering of ExitStatus::code()). -/
def formatExitCode : Option Int → String
  | some n => "Process exited with code: Some(" ++ toString n ++ ")"
  | none => "Process exited with code: None"

/-- The wait loop (lib.rs lines 424 to 465), given the final completion_sent
flag it observes. On a normal exit: a non-success status first yields one
error output describing the exit code; then, only when no completion was
sent yet, the fallback completion mirroring the exit status. On a wait
error: one error output, then a completion with success false emitted
unconditionally. -/
def runWait (pid : String) (outcome : WaitOutcome) (sent : Bool) : List SupEvent :=
  match outcome with
  | WaitOutcome.exited code =>
      (if exitSuccess code then [] else [SupEvent.output pid (formatExitCode code) true]) ++
      (if sent then [] else [SupEvent.completed pid (exitSuccess code)])
  | WaitOutcome.waitError emsg =>
      [SupEvent.output pid ("Process error: " ++ emsg) true,
       SupEvent.completed pid false]

/-- The stderr loop (lib.rs lines 399 to 417): every line becomes an error
output event. -/
def runStderr (pid : String) (lines : List String) : List SupEvent :=
  lines.map (fun l => SupEvent.output pid l true)

/-- A whole supervised run of one process (the three loops spawned by
start_claude_process). The loops are concurrent threads whose only shared
state is the atomic completion_sent flag: the stdout loop performs one
atomic swap per terminal line and the wait loop, on a normal exit, reads
the flag once before its guarded fallback (the error branch never reads
it). Since only terminal lines write the flag, every value that single
unsynchronized read can observe is the flag after some prefix of the
stdout lines was processed; loadPoint is that linearization point, ranging
over all schedules: the read observes the flag after the first loadPoint
lines. The returned list presents the stdout, stderr and wait events in
blocks; the spec guarantees no ordering between the streams, and the
theorems below constrain only per-kind membership and counts, which do not
depend on the cross-stream presentation order. -/
def runProcess (parse : String → Option Json) (pid : String)
    (stdoutLines stderrLines : List String) (outcome : WaitOutcome)
    (loadPoint : Nat) : List SupEvent :=
  (runStdout parse pid stdoutLines false).1 ++ runStderr pid stderrLines ++
    runWait pid outcome (runStdout parse pid (stdoutLines.take loadPoint) false).2

/-- ApprovalBehavior from mcp_manager.rs: the internal capitalized
representation of a decision. -/
inductive ApprovalBehavior where
  | Allow : ApprovalBehavior
  | Deny : ApprovalBehavior

/-- ApprovalResponse from mcp_manager.rs: behavior, optional message,
optional replacement input. -/
structure ApprovalResponse where
  behavior : ApprovalBehavior
  message : Option String
  updated_input : Option Json

/-- HttpApprovalRequest from mcp_manager.rs. -/
structure HttpApprovalRequest where
  request_id : String
  tool_name : String
  input : Json
  worktree_id : String
  timestamp : Nat

/-- State of one oneshot channel created for a pending approval.
waiting: sender and receiver both alive, nothing sent yet.
delivered: send succeeded with the given response.
closed: the sender was dropped unconsumed (the pending entry holding it was
displaced or torn down), so the suspended receive fails.
rxDropped: the receiving side went away, so a send will fail. -/
inductive SlotState where
  | waiting : SlotState
  | delivered (resp : ApprovalResponse) : SlotState
  | closed : SlotState
  | rxDropped : SlotState

/-- One entry of the pending_http_approvals table: the stored request and
the identity of the oneshot channel whose sender it owns
(PendingHttpApproval in mcp_manager.rs). -/
structure PendingEntry where
  request : HttpApprovalRequest
  slot : Nat

/-- The approval registry state: the pending table (a HashMap keyed by
request id, modelled as an association list with unique keys), the state of
every oneshot channel ever created, and a fresh-channel counter. -/
structure ApprovalSys where
  table : List (String × PendingEntry)
  slots : Nat → SlotState
  nextSlot : Nat

/-- HashMap::remove on the association-list table. -/
def removeKey (k : String) (t : List (String × PendingEntry)) :
    List (String × PendingEntry) :=
  t.filter (fun p => p.1 ≠ k)

/-- The registration half of handle_approval_request (mcp_manager.rs lines
79 to 96): create a fresh oneshot channel, then HashMap::insert the pending
entry under the request id. Insert replaces any entry already stored under
that id; the displaced entry (the return value of insert) is dropped, which
drops its unconsumed sender and closes its channel. -/
def register (st : ApprovalSys) (req : HttpApprovalRequest) : ApprovalSys :=
  let s := st.nextSlot
  let slots1 : Nat → SlotState := fun n => if n = s then SlotState.waiting else st.slots n
  let slots2 : Nat → SlotState :=
    match lookupKey req.request_id st.table with
    | some old =>
        fun n =>
          if n = old.slot then
            match slots1 old.slot with
            | SlotState.waiting => SlotState.closed
            | other => other
          else slots1 n
    | none => slots1
  { table := (req.request_id, PendingEntry.mk req s) :: removeKey req.request_id st.table,
    slots := slots2,
    nextSlot := s + 1 }

/-- The error message of respond_to_http_approval when the id has no pending
entry. -/
def notFoundMsg (id : String) : String :=
  "HTTP approval request not found: " ++ id

/-- The error message of respond_to_http_approval when the oneshot send
fails because the receiver is gone. -/
def sendFailMsg : String :=
  "Failed to send response to HTTP handler"

/-- respond_to_http_approval (mcp_manager.rs lines 432 to 464): look up the
pending entry; when absent return the not-found error with the state
untouched. When present, first HashMap::remove the entry, then send the
response into its oneshot channel: the send succeeds when the channel is
still waiting, and fails (the receiver was dropped) otherwise — the entry
stays removed either way. Returns the Result together with the new state. -/
def fulfillHttp (st : ApprovalSys) (id : String) (resp : ApprovalResponse) :
    Except String Unit × ApprovalSys :=
  match lookupKey id st.table with
  | some entry =>
      let st1 : ApprovalSys := { st with table := removeKey id st.table }
      match st.slots entry.slot with
      | SlotState.waiting =>
          (Except.ok (),
           { st1 with
             slots := fun n =>
               if n = entry.slot then SlotState.delivered resp else st.slots n })
      | _ => (Except.error sendFailMsg, st1)
  | none => (Except.error (notFoundMsg id), st)

/-- Legacy pending_approvals table entries (ApprovalRequest in
mcp_manager.rs); the fields play no role in the claims beyond identity. -/
structure ApprovalRequest where
  tool_name : String
  input : Json
  worktree_id : String
  timestamp : Nat

/-- Combined manager state: the HTTP approval registry plus the legacy
pending_approvals table. -/
structure ManagerState where
  http : ApprovalSys
  legacy : List (String × ApprovalRequest)

/-- respond_to_approval (mcp_manager.rs lines 403 to 430): try the HTTP
registry first and stop on success; on an HTTP-path error (whose state
mutation persists, the tables being shared) fall back to the legacy table,
removing the entry when present, and report not-found when the id is in
neither table. -/
def respond_to_approval (st : ManagerState) (id : String) (resp : ApprovalResponse) :
    Except String Unit × ManagerState :=
  match fulfillHttp st.http id resp with
  | (Except.ok _, h) => (Except.ok (), { st with http := h })
  | (Except.error _, h) =>
      match lookupKey id st.legacy with
      | some _ =>
          (Except.ok (),
           { http := h, legacy := st.legacy.filter (fun p => p.1 ≠ id) })
      | none =>
          (Except.error ("Approval request not found: " ++ id), { st with http := h })

/-- Lower-case wire rendering of the behavior (mcp_manager.rs lines 134
to 137). -/
def renderBehavior : ApprovalBehavior → String
  | ApprovalBehavior.Allow => "allow"
  | ApprovalBehavior.Deny => "deny"

/-- The wire response body built by handle_approval_request after the await
resolves (mcp_manager.rs lines 143 to 147): lower-case behavior token,
message or null, updatedInput or null. -/
def renderApproval (resp : ApprovalResponse) : Json :=
  Json.obj [("behavior", Json.str (renderBehavior resp.behavior)),
            ("message", match resp.message with
                        | some m => Json.str m
                        | none => Json.null),
            ("updatedInput", match resp.updated_input with
                             | some v => v
                             | none => Json.null)]

/-- What the suspended network handler observes for its oneshot channel
(mcp_manager.rs lines 115 to 153): a delivered response resolves the await
and is rendered into the HTTP 200 body; a closed channel makes the await
fail and the handler answers with an internal server error; a channel still
waiting leaves the handler suspended, as does a dropped receiver (there is
no handler left to observe anything). -/
inductive AwaitOutcome where
  | stillPending : AwaitOutcome
  | responded (body : Json) : AwaitOutcome
  | internalErr : AwaitOutcome

/-- Resolve the await observation for one channel of the registry state. -/
def awaitApproval (st : ApprovalSys) (slot : Nat) : AwaitOutcome :=
  match st.slots slot with
  | SlotState.delivered resp => AwaitOutcome.responded (renderApproval resp)
  | SlotState.closed => AwaitOutcome.internalErr
  | SlotState.waiting => AwaitOutcome.stillPending
  | SlotState.rxDropped => AwaitOutcome.stillPending


/-- A concrete parser for witnesses: exactly the line R is the terminal
result message. -/
def parseR : String → Option Json :=
  fun l => if l = "R" then some (Json.obj [("type", Json.str "result")]) else none

/-- The Allow decision with no message and no replacement input. -/
def allow0 : ApprovalResponse := ⟨ApprovalBehavior.Allow, none, none⟩

/-- A concrete approval request with id abc. -/
def req0 : HttpApprovalRequest := ⟨"abc", "execute_command", Json.null, "wt", 0⟩

/-- The empty registry: no pending entries, no live channels. -/
def sys0 : ApprovalSys := ⟨[], fun _ => SlotState.closed, 0⟩

/-- A registry with one pending entry abc holding channel zero, which is
waiting. -/
def sysOne : ApprovalSys :=
  ⟨[("abc", ⟨⟨"abc", "t1", Json.null, "w", 0⟩, 0⟩)],
   fun n => if n = 0 then SlotState.waiting else SlotState.closed, 1⟩

/-- A second approval request colliding on id abc. -/
def req1 : HttpApprovalRequest := ⟨"abc", "t2", Json.null, "w", 5⟩

/-- A registry with one pending entry abc whose channel receiver is gone. -/
def sysRx : ApprovalSys :=
  ⟨[("abc", ⟨⟨"abc", "t1", Json.null, "w", 0⟩, 0⟩)], fun _ => SlotState.rxDropped, 1⟩

/-
Theorems. Helper lemmas first, then one theorem per claim with its witness
or counterexample.
-/

/-- Reduction of the classifier on an assistant message whose content is an
array: the result is the joined collection, or none when nothing was
collected. -/
theorem classify_assistant (parse : String → Option Json) (line : String)
    (items : List Json) (hp : parse line = some (assistantJson items)) :
    parse_claude_json_line parse line =
      (if (collectAll items).isEmpty then none
       else some (joinNewline (collectAll items))) := by
  unfold parse_claude_json_line
  rw [hp]
  rfl

/-- Collecting over plain text items keeps, in order, exactly those texts
whose trimmed form is nonempty, verbatim. -/
theorem collectAll_textItems (ts : List String) :
    collectAll (ts.map textItem) = ts.filter (fun t => !(trimIsEmpty t)) := by
  induction ts with
  | nil => rfl
  | cons t ts ih =>
      have hstep : collectItem (textItem t) = if trimIsEmpty t then [] else [t] := rfl
      simp only [List.map, collectAll, hstep, List.filter]
      cases h : trimIsEmpty t <;> simp [h, ih]

/-- collectAll distributes over list append. -/
theorem collectAll_append (a b : List Json) :
    collectAll (a ++ b) = collectAll a ++ collectAll b := by
  induction a with
  | nil => rfl
  | cons i rest ih => simp [collectAll, ih]

/-- tool_use items contribute nothing to the collection. -/
theorem collectAll_toolUseItems (us : List String) :
    collectAll (us.map toolUseItem) = [] := by
  induction us with
  | nil => rfl
  | cons u us ih =>
      have hstep : collectItem (toolUseItem u) = [] := rfl
      simp [List.map, collectAll, hstep, ih]

/-- C6: for every input line that does not parse as the structured JSON
protocol and is non-empty after trimming, the classifier returns the line
verbatim; and the classifier is total, returning some or none on every
input. -/
theorem c6_unparseable_verbatim (parse : String → Option Json) (line : String)
    (hparse : parse line = none) (hne : trimIsEmpty line = false) :
    parse_claude_json_line parse line = some line ∧
      ∀ (p : String → Option Json) (l : String),
        (parse_claude_json_line p l).isSome ∨ (parse_claude_json_line p l).isNone := by
  constructor
  · unfold parse_claude_json_line
    rw [hparse, hne]
    simp
  · intro p l
    cases parse_claude_json_line p l <;> simp

/-- Witness for C6 at a concrete unparseable line. -/
theorem c6_witness :
    (fun _ : String => (none : Option Json)) "hi" = none ∧
    trimIsEmpty "hi" = false ∧
    parse_claude_json_line (fun _ => none) "hi" = some "hi" :=
  ⟨rfl, by decide, (c6_unparseable_verbatim (fun _ => none) "hi" rfl (by decide)).1⟩

/-- C7 counterexample: the claim says every text item is collected verbatim,
so an assistant message with text items First, a whitespace-only item, and
Second would have to yield all three joined; the code skips the
whitespace-only item and yields only First and Second. -/
theorem c7_counterexample :
    parse_claude_json_line
        (fun _ => some (assistantJson [textItem "First", textItem "   ", textItem "Second"]))
        "x" = some "First\nSecond" ∧
    parse_claude_json_line
        (fun _ => some (assistantJson [textItem "First", textItem "   ", textItem "Second"]))
        "x" ≠ some "First\n   \nSecond" := by
  exact ⟨by decide, by decide⟩

/-- C7 amended: for every parseable line of assistant kind whose content
items are text items, the classifier collects, in encounter order and
verbatim, exactly those text items whose trimmed text is nonempty
(whitespace-only text items are skipped), joins them with a newline
separator, and returns none when nothing was collected. -/
theorem c7_assistant_text_collection (parse : String → Option Json) (line : String)
    (ts : List String) (hp : parse line = some (assistantJson (ts.map textItem))) :
    parse_claude_json_line parse line =
      (if (ts.filter (fun t => !(trimIsEmpty t))).isEmpty then none
       else some (joinNewline (ts.filter (fun t => !(trimIsEmpty t))))) := by
  rw [classify_assistant parse line (ts.map textItem) hp, collectAll_textItems]

/-- Witness for C7 at the spec example: text items First and Second yield
the newline join of both. -/
theorem c7_witness :
    (fun _ : String => some (assistantJson (["First", "Second"].map textItem))) "x"
      = some (assistantJson (["First", "Second"].map textItem)) ∧
    parse_claude_json_line
        (fun _ => some (assistantJson (["First", "Second"].map textItem))) "x"
      = some "First\nSecond" := by
  refine ⟨rfl, ?_⟩
  have h := c7_assistant_text_collection
    (fun _ => some (assistantJson (["First", "Second"].map textItem))) "x"
    ["First", "Second"] rfl
  simpa using h

/-- C8 counterexample: the claim says the collected summary is the prefix
Tool result followed by the result text itself; the code trims the result
text first, so a tool_result whose text carries surrounding spaces yields
the trimmed summary, not the verbatim one. -/
theorem c8_counterexample :
    parse_claude_json_line
        (fun _ => some (assistantJson [toolUseItem "write_file", toolResultItem " hi "])) "x"
      = some "Tool result: hi" ∧
    parse_claude_json_line
        (fun _ => some (assistantJson [toolUseItem "write_file", toolResultItem " hi "])) "x"
      ≠ some "Tool result:  hi " := by
  exact ⟨by decide, by decide⟩

/-- C8 amended: for an assistant content array of tool_use items followed by
one tool_result item whose trimmed result text is nonempty, the tool_use
items are skipped entirely and contribute nothing, and the classifier
returns the summary formed by the prefix Tool result followed by the
trimmed result text. -/
theorem c8_tool_result_summary (parse : String → Option Json) (line : String)
    (us : List String) (s : String)
    (hp : parse line = some (assistantJson (us.map toolUseItem ++ [toolResultItem s])))
    (hs : trimIsEmpty s = false) :
    parse_claude_json_line parse line = some ("Tool result: " ++ trimOf s) := by
  rw [classify_assistant parse line (us.map toolUseItem ++ [toolResultItem s]) hp,
      collectAll_append, collectAll_toolUseItems]
  have hone : collectItem (toolResultItem s) =
      if trimIsEmpty s then [] else ["Tool result: " ++ trimOf s] := rfl
  simp [collectAll, hone, hs, joinNewline]

/-- Witness for C8 at a concrete tool_use plus tool_result pair. -/
theorem c8_witness :
    (fun _ : String =>
        some (assistantJson (["write_file"].map toolUseItem ++ [toolResultItem " hi "]))) "x"
      = some (assistantJson (["write_file"].map toolUseItem ++ [toolResultItem " hi "])) ∧
    trimIsEmpty " hi " = false ∧
    parse_claude_json_line
        (fun _ =>
          some (assistantJson (["write_file"].map toolUseItem ++ [toolResultItem " hi "]))) "x"
      = some ("Tool result: " ++ trimOf " hi ") :=
  ⟨rfl, by decide,
   c8_tool_result_summary
     (fun _ => some (assistantJson (["write_file"].map toolUseItem ++ [toolResultItem " hi "])))
     "x" ["write_file"] " hi " rfl (by decide)⟩

/-- The final completion_sent flag of the stdout loop: the initial flag, or
true as soon as some line is the terminal message. -/
theorem runStdout_flag (parse : String → Option Json) (pid : String) :
    ∀ (lines : List String) (sent : Bool),
      (runStdout parse pid lines sent).2 =
        (sent || lines.any (fun l => isResultLine parse l)) := by
  intro lines
  induction lines with
  | nil => intro sent; simp [runStdout]
  | cons l ls ih =>
      intro sent
      cases hR : isResultLine parse l
      · cases hc : parse_claude_json_line parse l <;>
          simp [runStdout, stdoutLineStep, hR, hc, ih, List.any_cons]
      · simp [runStdout, stdoutLineStep, hR, ih, List.any_cons]

/-- The claude-completed events of the stdout loop: none when the flag is
already set; exactly one successful completion when the flag starts false
and some line is the terminal message; none otherwise. -/
theorem runStdout_completions (parse : String → Option Json) (pid : String) :
    ∀ (lines : List String) (sent : Bool),
      (runStdout parse pid lines sent).1.filter SupEvent.isCompleted =
        (if sent then []
         else if lines.any (fun l => isResultLine parse l) then [SupEvent.completed pid true]
         else []) := by
  intro lines
  induction lines with
  | nil => intro sent; cases sent <;> simp [runStdout]
  | cons l ls ih =>
      intro sent
      cases hR : isResultLine parse l
      · cases hc : parse_claude_json_line parse l <;>
          cases sent <;>
            simp [runStdout, stdoutLineStep, hR, hc, ih, List.any_cons, SupEvent.isCompleted]
      · cases sent <;>
          simp [runStdout, stdoutLineStep, hR, ih, List.any_cons, SupEvent.isCompleted]

/-- The stdout loop never emits an error output: classifier outputs carry
is_error false and completions are not outputs. -/
theorem runStdout_no_error_output (parse : String → Option Json) (pid : String) :
    ∀ (lines : List String) (sent : Bool),
      (runStdout parse pid lines sent).1.filter SupEvent.isErrOutput = [] := by
  intro lines
  induction lines with
  | nil => intro sent; simp [runStdout]
  | cons l ls ih =>
      intro sent
      cases hR : isResultLine parse l
      · cases hc : parse_claude_json_line parse l <;>
          simp [runStdout, stdoutLineStep, hR, hc, ih, SupEvent.isErrOutput]
      · cases sent <;>
          simp [runStdout, stdoutLineStep, hR, ih, SupEvent.isErrOutput]

/-- Completions of the wait loop after a normal OS exit: exactly the guarded
fallback completion mirroring the exit status. -/
theorem runWait_completions_exited (pid : String) (code : Option Int) (sent : Bool) :
    (runWait pid (WaitOutcome.exited code) sent).filter SupEvent.isCompleted =
      (if sent then [] else [SupEvent.completed pid (exitSuccess code)]) := by
  cases sent <;> cases hc : exitSuccess code <;>
    simp [runWait, hc, SupEvent.isCompleted]

/-- Error outputs of the wait loop after a normal OS exit: exactly the
exit-code description when the status is non-success. -/
theorem runWait_errors_exited (pid : String) (code : Option Int) (sent : Bool) :
    (runWait pid (WaitOutcome.exited code) sent).filter SupEvent.isErrOutput =
      (if exitSuccess code then []
       else [SupEvent.output pid (formatExitCode code) true]) := by
  cases sent <;> cases hc : exitSuccess code <;>
    simp [runWait, hc, SupEvent.isErrOutput]

/-- A prefix of the stdout stream containing a terminal line means the
whole stream contains one. -/
theorem any_take_imp {α : Type} (p : α → Bool) (l : List α) (k : Nat)
    (h : (l.take k).any p = true) : l.any p = true := by
  rcases List.any_eq_true.mp h with ⟨x, hx, hpx⟩
  exact List.any_eq_true.mpr ⟨x, List.mem_of_mem_take hx, hpx⟩

/-- A stream with no terminal line has none in any prefix. -/
theorem any_take_false {α : Type} (p : α → Bool) (l : List α) (k : Nat)
    (h : l.any p = false) : (l.take k).any p = false := by
  cases htk : (l.take k).any p
  · rfl
  · rw [any_take_imp p l k htk] at h
    cases h

/-- The stderr loop emits no claude-completed events. -/
theorem runStderr_no_completions (pid : String) (lines : List String) :
    (runStderr pid lines).filter SupEvent.isCompleted = [] := by
  induction lines with
  | nil => rfl
  | cons l ls ih => simp [runStderr, SupEvent.isCompleted]

/-- C1 counterexample: a process whose stdout emits the terminal message and
whose wait call then fails receives one completion from the stdout path and
a second, unconditional completion from the error branch of the wait loop:
two completion events for one process id, under any schedule (the error
branch never reads the completion flag; the schedule shown reads it after
the terminal line). -/
theorem c1_counterexample :
    countCompleted
        (runProcess
          (fun l => if l = "R" then some (Json.obj [("type", Json.str "result")]) else none)
          "p" ["R"] [] (WaitOutcome.waitError "boom") 1) = 2 := by
  decide

/-- C1 amended: the stdout terminal-message path emits at most one
completion under every schedule (its atomic swap), and so does the guarded
fallback of the wait loop on a normal OS exit; when the wait loop reads
the completion flag at a point where it already has its post-drain value
(in particular after any terminal line was processed, or when there is
none), at most one completion in total is emitted on a normal exit. The
error branch of the wait loop emits unconditionally, and an early flag
read racing a late terminal line can let the fallback and the primary
completion both fire. -/
theorem c1_at_most_one_completion (parse : String → Option Json) (pid : String)
    (stdoutLines stderrLines : List String) (code : Option Int) (loadPoint : Nat)
    (hsync : (stdoutLines.take loadPoint).any (fun l => isResultLine parse l)
        = stdoutLines.any (fun l => isResultLine parse l)) :
    countCompleted (runProcess parse pid stdoutLines stderrLines
        (WaitOutcome.exited code) loadPoint) ≤ 1 ∧
    countCompleted (runStdout parse pid stdoutLines false).1 ≤ 1 ∧
    ∀ (sent : Bool), countCompleted (runWait pid (WaitOutcome.exited code) sent) ≤ 1 := by
  refine ⟨?_, ?_, ?_⟩
  · unfold countCompleted runProcess
    rw [List.filter_append, List.filter_append,
        runStdout_completions parse pid stdoutLines false,
        runWait_completions_exited pid code,
        runStdout_flag parse pid (stdoutLines.take loadPoint) false, hsync,
        runStderr_no_completions]
    cases hA : stdoutLines.any (fun l => isResultLine parse l) <;> simp
  · unfold countCompleted
    rw [runStdout_completions parse pid stdoutLines false]
    cases hA : stdoutLines.any (fun l => isResultLine parse l) <;> simp
  · intro sent
    unfold countCompleted
    rw [runWait_completions_exited pid code]
    cases sent <;> simp

/-- Witness for C1: terminal line R, non-zero exit, flag read after the
line: at most one completion. -/
theorem c1_witness :
    ((["R"].take 1).any (fun l => isResultLine parseR l)
        = ["R"].any (fun l => isResultLine parseR l)) ∧
    countCompleted (runProcess parseR "p" ["R"] [] (WaitOutcome.exited (some 1)) 1) ≤ 1 :=
  ⟨by decide, (c1_at_most_one_completion parseR "p" ["R"] [] (some 1) 1 (by decide)).1⟩

/-- C4 counterexample: loadPoint zero models the wait thread loading the
completion flag before the reader has processed the buffered terminal
line, a schedule the program permits since the load is not a swap and
nothing orders it after the drain; the fallback and the primary completion
both fire: two completion events on a terminal-message-then-exit-zero run,
falsifying the exactly-one claim. -/
theorem c4_counterexample :
    countCompleted
        (runProcess parseR "p" ["R"] [] (WaitOutcome.exited (some 0)) 0) = 2 := by
  decide

/-- C4 amended: a process whose stdout emits the distinguished terminal
message and whose OS process then exits with status zero produces exactly
one completion event, with success true, whenever the wait loop reads the
completion flag after a terminal line was processed; under every schedule
each completion event of such a run carries success true; and the
terminal-message line itself produces no per-line output event. -/
theorem c4_terminal_then_exit_zero (parse : String → Option Json) (pid : String)
    (lines : List String) (loadPoint : Nat)
    (hload : (lines.take loadPoint).any (fun l => isResultLine parse l) = true) :
    (runProcess parse pid lines [] (WaitOutcome.exited (some 0)) loadPoint).filter
        SupEvent.isCompleted = [SupEvent.completed pid true] ∧
    (∀ (k : Nat) (e : SupEvent),
        e ∈ (runProcess parse pid lines [] (WaitOutcome.exited (some 0)) k).filter
              SupEvent.isCompleted → e = SupEvent.completed pid true) ∧
    ∀ (l : String) (sent : Bool), isResultLine parse l = true →
      (stdoutLineStep parse pid l sent).1.filter SupEvent.isOutput = [] := by
  have hA : lines.any (fun l => isResultLine parse l) = true :=
    any_take_imp _ lines loadPoint hload
  refine ⟨?_, ?_, ?_⟩
  · unfold runProcess
    rw [List.filter_append, List.filter_append,
        runStdout_completions parse pid lines false,
        runWait_completions_exited pid (some 0),
        runStdout_flag parse pid (lines.take loadPoint) false, hload, hA,
        runStderr_no_completions]
    simp
  · intro k e he
    unfold runProcess at he
    rw [List.filter_append, List.filter_append,
        runStdout_completions parse pid lines false,
        runWait_completions_exited pid (some 0),
        runStdout_flag parse pid (lines.take k) false, hA,
        runStderr_no_completions] at he
    cases hk : (lines.take k).any (fun l => isResultLine parse l) <;>
      rw [hk] at he <;> simp [exitSuccess] at he <;> simp [he]
  · intro l sent hl
    cases sent <;> simp [stdoutLineStep, hl, SupEvent.isOutput]

/-- Witness for C4: the single terminal line R with exit code zero and the
flag read after it yields the one successful completion, and the terminal
line emits no output. -/
theorem c4_witness :
    ((["R"].take 1).any (fun l => isResultLine parseR l) = true) ∧
    (runProcess parseR "p" ["R"] [] (WaitOutcome.exited (some 0)) 1).filter
        SupEvent.isCompleted = [SupEvent.completed "p" true] ∧
    (stdoutLineStep parseR "p" "R" false).1.filter SupEvent.isOutput = [] :=
  ⟨by decide,
   (c4_terminal_then_exit_zero parseR "p" ["R"] 1 (by decide)).1,
   (c4_terminal_then_exit_zero parseR "p" ["R"] 1 (by decide)).2.2 "R" false (by decide)⟩

/-- C5: a process that never emits the terminal message, with an empty
stderr stream, whose OS process exits with a non-success status produces,
under every schedule of the wait loop flag read, exactly one error output
event describing the exit code and exactly one completion event, with
success false. -/
theorem c5_fallback_completion (parse : String → Option Json) (pid : String)
    (lines : List String) (code : Option Int) (loadPoint : Nat)
    (hA : lines.any (fun l => isResultLine parse l) = false)
    (hc : exitSuccess code = false) :
    (runProcess parse pid lines [] (WaitOutcome.exited code) loadPoint).filter
        SupEvent.isCompleted = [SupEvent.completed pid false] ∧
    (runProcess parse pid lines [] (WaitOutcome.exited code) loadPoint).filter
        SupEvent.isErrOutput = [SupEvent.output pid (formatExitCode code) true] := by
  have hk : (lines.take loadPoint).any (fun l => isResultLine parse l) = false :=
    any_take_false _ lines loadPoint hA
  constructor
  · unfold runProcess
    rw [List.filter_append, List.filter_append,
        runStdout_completions parse pid lines false,
        runWait_completions_exited pid code,
        runStdout_flag parse pid (lines.take loadPoint) false, hA, hk, hc]
    simp [runStderr]
  · unfold runProcess
    rw [List.filter_append, List.filter_append,
        runStdout_no_error_output parse pid lines false,
        runWait_errors_exited pid code, hc]
    simp [runStderr]

/-- Witness for C5: one plain stdout line, no terminal message, exit code
one: exactly one error output describing the exit code and one failed
completion. -/
theorem c5_witness :
    (["hello"].any (fun l => isResultLine (fun _ => none) l) = false) ∧
    exitSuccess (some 1) = false ∧
    (runProcess (fun _ => none) "p" ["hello"] [] (WaitOutcome.exited (some 1)) 0).filter
        SupEvent.isCompleted = [SupEvent.completed "p" false] ∧
    (runProcess (fun _ => none) "p" ["hello"] [] (WaitOutcome.exited (some 1)) 0).filter
        SupEvent.isErrOutput = [SupEvent.output "p" (formatExitCode (some 1)) true] :=
  ⟨by decide, by decide,
   (c5_fallback_completion (fun _ => none) "p" ["hello"] (some 1) 0 (by decide) (by decide)).1,
   (c5_fallback_completion (fun _ => none) "p" ["hello"] (some 1) 0 (by decide) (by decide)).2⟩

/-- Removing a key from the pending table makes its lookup fail. -/
theorem lookupKey_removeKey (k : String) (t : List (String × PendingEntry)) :
    lookupKey k (removeKey k t) = none := by
  induction t with
  | nil => rfl
  | cons p rest ih =>
      by_cases h : p.1 = k
      · simp [removeKey, List.filter, h] at ih ⊢
        exact ih
      · simp [removeKey, List.filter, h, lookupKey] at ih ⊢
        exact ih

/-- No entry keyed by k survives in the table once removeKey k ran. -/
theorem filter_eq_removeKey (k : String) (t : List (String × PendingEntry)) :
    (removeKey k t).filter (fun p => p.1 = k) = [] := by
  induction t with
  | nil => rfl
  | cons p rest ih =>
      by_cases h : p.1 = k <;> simp [removeKey, List.filter, h, ih]




/-- C2: registering a fresh pending approval and then fulfilling it with the
Allow decision succeeds, and the suspended await resolves to the rendered
wire response with lower-case behavior token allow, null message and null
updatedInput; the behavior rendering is lower-case for both decisions. -/
theorem c2_approval_round_trip (st : ApprovalSys) (req : HttpApprovalRequest)
    (hfresh : lookupKey req.request_id st.table = none) :
    (fulfillHttp (register st req) req.request_id allow0).1 = Except.ok () ∧
    awaitApproval (fulfillHttp (register st req) req.request_id allow0).2 st.nextSlot =
      AwaitOutcome.responded
        (Json.obj [("behavior", Json.str "allow"), ("message", Json.null),
                   ("updatedInput", Json.null)]) ∧
    renderBehavior ApprovalBehavior.Allow = "allow" ∧
    renderBehavior ApprovalBehavior.Deny = "deny" := by
  have hreg : register st req =
      { table := (req.request_id, PendingEntry.mk req st.nextSlot)
          :: removeKey req.request_id st.table,
        slots := fun n => if n = st.nextSlot then SlotState.waiting else st.slots n,
        nextSlot := st.nextSlot + 1 } := by
    unfold register
    rw [hfresh]
  refine ⟨?_, ?_, rfl, rfl⟩ <;>
    simp [hreg, fulfillHttp, lookupKey, awaitApproval, renderApproval, renderBehavior, allow0]

/-- Witness for C2: round trip on the empty registry with request id abc. -/
theorem c2_witness :
    lookupKey "abc" sys0.table = none ∧
    (fulfillHttp (register sys0 req0) "abc" allow0).1 = Except.ok () ∧
    awaitApproval (fulfillHttp (register sys0 req0) "abc" allow0).2 0 =
      AwaitOutcome.responded
        (Json.obj [("behavior", Json.str "allow"), ("message", Json.null),
                   ("updatedInput", Json.null)]) :=
  ⟨rfl, (c2_approval_round_trip sys0 req0 rfl).1,
        (c2_approval_round_trip sys0 req0 rfl).2.1⟩

/-- C3: fulfilling a request id with no pending entry returns the not-found
error and leaves the state untouched, both for the HTTP registry alone and
for the combined manager when the id is in neither table; and after any
successful HTTP fulfillment the entry is gone, so a second fulfillment of
the same id observes the not-found error and changes nothing. -/
theorem c3_fulfill_not_found (st : ApprovalSys) (ms : ManagerState) (id : String)
    (resp mresp resp2 : ApprovalResponse)
    (h1 : lookupKey id st.table = none)
    (h2 : lookupKey id ms.http.table = none)
    (h3 : lookupKey id ms.legacy = none) :
    fulfillHttp st id resp = (Except.error (notFoundMsg id), st) ∧
    respond_to_approval ms id mresp =
      (Except.error ("Approval request not found: " ++ id), ms) ∧
    ∀ (st0 : ApprovalSys) (r1 : ApprovalResponse),
      (fulfillHttp st0 id r1).1 = Except.ok () →
      fulfillHttp (fulfillHttp st0 id r1).2 id resp2 =
        (Except.error (notFoundMsg id), (fulfillHttp st0 id r1).2) := by
  refine ⟨?_, ?_, ?_⟩
  · unfold fulfillHttp
    rw [h1]
  · have hh : fulfillHttp ms.http id mresp = (Except.error (notFoundMsg id), ms.http) := by
      unfold fulfillHttp
      rw [h2]
    unfold respond_to_approval
    rw [hh, h3]
  · intro st0 r1 hok
    cases hlk : lookupKey id st0.table with
    | none => simp [fulfillHttp, hlk] at hok
    | some entry =>
        cases hsl : st0.slots entry.slot with
        | waiting =>
            have hful : fulfillHttp st0 id r1 =
                (Except.ok (),
                 { table := removeKey id st0.table,
                   slots := fun n =>
                     if n = entry.slot then SlotState.delivered r1 else st0.slots n,
                   nextSlot := st0.nextSlot }) := by
              simp [fulfillHttp, hlk, hsl]
            rw [hful]
            simp [fulfillHttp, lookupKey_removeKey]
        | delivered r => simp [fulfillHttp, hlk, hsl] at hok
        | closed => simp [fulfillHttp, hlk, hsl] at hok
        | rxDropped => simp [fulfillHttp, hlk, hsl] at hok

/-- Witness for C3: the unknown id missing on the empty registry and the
empty combined manager state. -/
theorem c3_witness :
    lookupKey "missing" sys0.table = none ∧
    fulfillHttp sys0 "missing" allow0 = (Except.error (notFoundMsg "missing"), sys0) ∧
    respond_to_approval ⟨sys0, []⟩ "missing" allow0 =
      (Except.error ("Approval request not found: " ++ "missing"), ⟨sys0, []⟩) :=
  ⟨rfl,
   (c3_fulfill_not_found sys0 ⟨sys0, []⟩ "missing" allow0 allow0 allow0 rfl rfl rfl).1,
   (c3_fulfill_not_found sys0 ⟨sys0, []⟩ "missing" allow0 allow0 allow0 rfl rfl rfl).2.1⟩

/-- C9: registering a new pending approval under an id that already has a
pending entry overwrites deterministically: the new entry replaces the old
one in the table, the id stays unique among pending entries, the displaced
single-use channel is closed by dropping its sender, and the displaced
suspended await consequently fails with an internal error instead of ever
resolving, while the await of the new entry is still pending. -/
theorem c9_colliding_register_overwrites (st : ApprovalSys) (req : HttpApprovalRequest)
    (old : PendingEntry)
    (hold : lookupKey req.request_id st.table = some old)
    (hwait : st.slots old.slot = SlotState.waiting)
    (hfresh : old.slot ≠ st.nextSlot) :
    lookupKey req.request_id (register st req).table =
      some (PendingEntry.mk req st.nextSlot) ∧
    ((register st req).table.filter (fun p => p.1 = req.request_id)).length = 1 ∧
    (register st req).slots old.slot = SlotState.closed ∧
    awaitApproval (register st req) old.slot = AwaitOutcome.internalErr ∧
    (register st req).slots st.nextSlot = SlotState.waiting := by
  have hslotOld : (register st req).slots old.slot = SlotState.closed := by
    simp [register, hold, hfresh, hwait]
  refine ⟨?_, ?_, hslotOld, ?_, ?_⟩
  · simp [register, hold, lookupKey]
  · simp [register, hold, List.filter, filter_eq_removeKey]
  · simp [awaitApproval, hslotOld]
  · simp [register, hold, Ne.symm hfresh]



/-- Witness for C9: the collision on id abc over sysOne. -/
theorem c9_witness :
    lookupKey "abc" sysOne.table = some ⟨⟨"abc", "t1", Json.null, "w", 0⟩, 0⟩ ∧
    sysOne.slots 0 = SlotState.waiting ∧
    (0 : Nat) ≠ 1 ∧
    lookupKey "abc" (register sysOne req1).table = some (PendingEntry.mk req1 1) ∧
    awaitApproval (register sysOne req1) 0 = AwaitOutcome.internalErr :=
  ⟨rfl, rfl, by decide,
   (c9_colliding_register_overwrites sysOne req1 ⟨⟨"abc", "t1", Json.null, "w", 0⟩, 0⟩
      rfl rfl (by decide)).1,
   (c9_colliding_register_overwrites sysOne req1 ⟨⟨"abc", "t1", Json.null, "w", 0⟩, 0⟩
      rfl rfl (by decide)).2.2.2.1⟩

/-- C10: when the pending entry exists but the awaiting side is gone (the
receiver of the single-use channel was dropped), fulfillment returns the
send-failure error and the entry has nonetheless been removed from the
pending table, so a subsequent fulfillment of the same id observes the
not-found error. -/
theorem c10_failed_send_still_removes (st : ApprovalSys) (id : String)
    (resp resp2 : ApprovalResponse) (entry : PendingEntry)
    (hlk : lookupKey id st.table = some entry)
    (hrx : st.slots entry.slot = SlotState.rxDropped) :
    (fulfillHttp st id resp).1 = Except.error sendFailMsg ∧
    lookupKey id (fulfillHttp st id resp).2.table = none ∧
    fulfillHttp (fulfillHttp st id resp).2 id resp2 =
      (Except.error (notFoundMsg id), (fulfillHttp st id resp).2) := by
  have hful : fulfillHttp st id resp =
      (Except.error sendFailMsg, { st with table := removeKey id st.table }) := by
    simp [fulfillHttp, hlk, hrx]
  refine ⟨by rw [hful], ?_, ?_⟩
  · rw [hful]
    exact lookupKey_removeKey id st.table
  · rw [hful]
    simp [fulfillHttp, lookupKey_removeKey]


/-- Witness for C10: failed delivery on sysRx still removes the entry and
the second fulfillment observes not-found. -/
theorem c10_witness :
    lookupKey "abc" sysRx.table = some ⟨⟨"abc", "t1", Json.null, "w", 0⟩, 0⟩ ∧
    sysRx.slots 0 = SlotState.rxDropped ∧
    (fulfillHttp sysRx "abc" allow0).1 = Except.error sendFailMsg ∧
    lookupKey "abc" (fulfillHttp sysRx "abc" allow0).2.table = none :=
  ⟨rfl, rfl,
   (c10_failed_send_still_removes sysRx "abc" allow0 allow0
      ⟨⟨"abc", "t1", Json.null, "w", 0⟩, 0⟩ rfl rfl).1,
   (c10_failed_send_still_removes sysRx "abc" allow0 allow0
      ⟨⟨"abc", "t1", Json.null, "w", 0⟩, 0⟩ rfl rfl).2.1⟩
